import Mathlib

/-!
Verification development for the PDF batch processor
(`pdf_batch_processor.py`): a shallow embedding of the outline
(bookmark) visibility editor `collapse_child_bookmarks` /
`process_bookmarks`, the property inspector `get_pdf_properties`, the
metadata scrubber `remove_metadata`, and the per-file pipeline
`process_pdf`, together with theorems about them.

Modelling conventions:
* The PDF outline tree is an arena of nodes addressed by `Nat` indices.
  Each node carries its `/First` child pointer, `/Next` sibling pointer,
  its `/Count` entry, and a `title` standing for every other entry of the
  node's dictionary (the editor never touches those).
* A `/Count` value is modelled by `CVal`: real integers (`CVal.num`) and
  non-integer garbage (`CVal.junk`), on which Python's `int()` raises.
* Python's bounded call stack is modelled by an explicit stack budget:
  `collapse_child_bookmarks` returns `Except.error` exactly when the
  budget is exhausted on entering the call, which mirrors a
  `RecursionError` raised at the call site (and caught by the caller's
  `try/except`, as in the source).  The sibling `while` loop carries its
  own iteration budget `L`; exhausting it models a walk that would not
  terminate in Python either (a cyclic sibling chain).
-/

/-- A `/Count` value as stored in an outline dictionary: either an
integer, or a non-integer object on which `int()` raises. -/
inductive CVal where
  | num (n : Int)
  | junk (s : String)
deriving DecidableEq, Repr

/-- One outline (bookmark) node: `/First` child pointer, `/Next` sibling
pointer, `/Count`, and `title` standing for all remaining entries. -/
structure ONode where
  first : Option Nat
  next : Option Nat
  count : Option CVal
  title : String
deriving DecidableEq, Repr

/-- The arena of outline nodes; pointers are indices into this list. -/
abbrev Arena := List ONode

/-- Dereference a node pointer.  An out-of-range index yields an inert
empty node (no children, no sibling). -/
def getNode (a : Arena) (i : Nat) : ONode :=
  a.getD i ⟨none, none, none, ""⟩

/-- Write the integer `v` into the `/Count` entry of node `i`
(`outline_item.Count = v` in the source); all other entries of the node
and all other nodes are untouched. -/
def setCount (a : Arena) (i : Nat) (v : Int) : Arena :=
  a.set i { getNode a i with count := some (.num v) }

/-- The `while child:` loop of `collapse_child_bookmarks` (lines
122-128): walk the sibling chain, recursing into each child via `rec`
and counting them.  `rec` is the recursive call at one stack level
deeper; if it reports a `RecursionError` (`Except.error`), the error
escapes the loop (to be caught by the enclosing `try/except`), with all
mutations performed so far kept.  `lfuel` is the sibling-walk budget. -/
def collapseLoop (rec : Arena → Nat → Nat → Except Arena Arena) :
    Nat → Arena → Option Nat → Nat → Nat → Except Arena (Arena × Nat)
  | _, a, none, _, cnt => .ok (a, cnt)
  | 0, a, some _, _, _ => .error a
  | lfuel + 1, a, some c, level, cnt =>
    match rec a c (level + 1) with
    | .error a2 => .error a2
    | .ok a2 => collapseLoop rec lfuel a2 ((getNode a2 c).next) level (cnt + 1)

/-- The call `collapse_child_bookmarks(outline_item, current_level,
visible_levels)` (lines 109-143 of the source).  `s` is the remaining
stack budget: `Except.error` is a `RecursionError` raised on entering
the call (state unchanged); `Except.ok` is a normal return — the
function's own `try/except Exception: pass` catches every error raised
inside its body, so a completed call never propagates one.  A node with
no `/First` is left untouched; otherwise the children are counted and
recursed into, and `/Count` is set to the count, negated when
`visible_levels != 0 and current_level >= visible_levels`. -/
def collapse_child_bookmarks (L : Nat) :
    Nat → Arena → Nat → Nat → Nat → Except Arena Arena
  | 0, a, _, _, _ => .error a
  | s + 1, a, i, level, vis =>
    .ok
      (match (getNode a i).first with
      | none => a
      | some c =>
        match collapseLoop
            (fun b j lvl => collapse_child_bookmarks L s b j lvl vis)
            L a (some c) level 0 with
        | .error a2 => a2
        | .ok (a2, cnt) =>
          if 0 < cnt then
            if vis = 0 then setCount a2 i (cnt : Int)
            else if vis ≤ level then setCount a2 i (-(cnt : Int))
            else setCount a2 i (cnt : Int)
          else a2)

/-- The `while current:` loop of `process_bookmarks` (lines 163-170):
call `collapse_child_bookmarks(current, 1, visible_levels)` on each
top-level bookmark in turn.  A `RecursionError` escaping one of those
calls is caught by `process_bookmarks`' own `try/except`, which stops
the loop (remaining top-level bookmarks are not processed). -/
def topLoop (L : Nat) : Nat → Nat → Arena → Nat → Nat → Arena
  | 0, _, a, _, _ => a
  | lfuel + 1, s, a, cur, vis =>
    match collapse_child_bookmarks L s a cur 1 vis with
    | .error a2 => a2
    | .ok a2 =>
      match (getNode a2 cur).next with
      | none => a2
      | some nxt => topLoop L lfuel s a2 nxt vis

/-- The function `process_bookmarks(pdf, visible_levels)` (lines
145-174), restricted to its effect on the outline arena: if the catalog
has a (truthy) `/Outlines` whose root has a `/First`, process every
top-level bookmark.  `outlines` is the index of the outline root when
`/Outlines` is present and truthy. -/
def process_bookmarks (L s : Nat) (outlines : Option Nat) (a : Arena)
    (vis : Nat) : Arena :=
  match outlines with
  | none => a
  | some o =>
    match (getNode a o).first with
    | none => a
    | some c => topLoop L L s a c vis

/-- Walk a sibling chain (`/Next` pointers) collecting the indices
visited, up to `fuel` steps. -/
def walkChain (a : Arena) : Nat → Option Nat → List Nat
  | _, none => []
  | 0, some _ => []
  | fuel + 1, some c => c :: walkChain a fuel (getNode a c).next

/-- The direct children of node `i`: the sibling chain hanging off its
`/First` pointer. -/
def childIdxs (a : Arena) (fuel : Nat) (i : Nat) : List Nat :=
  walkChain a fuel (getNode a i).first

/-- Bounded descendant test: is `x` reachable from `p` by child
steps? -/
def isDescB (a : Arena) : Nat → Nat → Nat → Bool
  | 0, _, _ => false
  | fuel + 1, p, x =>
    (childIdxs a (fuel + 1) p).any (fun c => c == x || isDescB a fuel c x)

/-- The malformed-outline condition of the cycle-safety property: node
`x` (a descendant of `anc`) lists its ancestor `anc` among its own
children. -/
def hasBackEdge (a : Arena) (fuel x anc : Nat) : Bool :=
  isDescB a fuel anc x && (childIdxs a fuel x).contains anc

/- ### Specification-level view of a well-formed outline forest -/

mutual
/-- An abstract, finite outline tree: the arena index of the node and
the list of its child subtrees. -/
inductive OTree where
  | node (idx : Nat) (children : OForest) : OTree
deriving DecidableEq, Repr
/-- A finite list of outline trees (a sibling chain). -/
inductive OForest where
  | nil : OForest
  | cons (t : OTree) (f : OForest) : OForest
deriving DecidableEq, Repr
end

/-- Number of trees in a forest (number of direct children). -/
def lenF : OForest → Nat
  | .nil => 0
  | .cons _ f => lenF f + 1

mutual
/-- Height of a tree (1 for a leaf): the stack depth the recursive
traversal needs below a call on this node. -/
def htT : OTree → Nat
  | .node _ f => htF f + 1
/-- Maximal height of the trees of a forest. -/
def htF : OForest → Nat
  | .nil => 0
  | .cons t f => max (htT t) (htF f)
end

mutual
/-- Maximal sibling-chain length occurring anywhere in the tree. -/
def wdT : OTree → Nat
  | .node _ f => max (lenF f) (wdF f)
/-- Maximal sibling-chain length occurring anywhere in a forest. -/
def wdF : OForest → Nat
  | .nil => 0
  | .cons t f => max (wdT t) (wdF f)
end

mutual
/-- All arena indices of a tree (children first, then the node). -/
def idxsT : OTree → List Nat
  | .node i f => idxsF f ++ [i]
/-- All arena indices of a forest. -/
def idxsF : OForest → List Nat
  | .nil => []
  | .cons t f => idxsT t ++ idxsF f
end

mutual
/-- All `(index, depth, childCount)` triples of a tree, where the tree
itself sits at depth `d`. -/
def nodesT : OTree → Nat → List (Nat × Nat × Nat)
  | .node i f, d => nodesF f (d + 1) ++ [(i, d, lenF f)]
/-- All `(index, depth, childCount)` triples of a forest sitting at
depth `d`. -/
def nodesF : OForest → Nat → List (Nat × Nat × Nat)
  | .nil, _ => []
  | .cons t f, d => nodesT t d ++ nodesF f d
end

mutual
/-- Does the abstract tree `t` faithfully describe the arena, starting
at index `i`?  The node's `/First` chain must spell out exactly the
children of `t`, recursively, and every index must be in range. -/
def nodeRepB (a : Arena) : Nat → OTree → Bool
  | i, .node j f =>
    i == j && decide (i < a.length) && chainRepB a (getNode a i).first f
/-- Does the forest `f` spell out exactly the sibling chain starting at
pointer `c`? -/
def chainRepB (a : Arena) : Option Nat → OForest → Bool
  | none, .nil => true
  | some c, .cons t f => nodeRepB a c t && chainRepB a (getNode a c).next f
  | none, .cons _ _ => false
  | some _, .nil => false
end

/-- The `/Count` value the editor assigns to a node at depth `d` with
`k` children: `k`, negated when `vis != 0 and vis <= d`
(`current_level >= visible_levels` in the source). -/
def policy (vis d k : Nat) : Int :=
  if vis = 0 then (k : Int) else if vis ≤ d then -(k : Int) else (k : Int)

mutual
/-- Intended effect of `collapse_child_bookmarks` on a well-formed
subtree sitting at depth `d`: process the children left to right at
depth `d + 1`, then write the policy count — or nothing for a leaf. -/
def applyNodeT : OTree → Nat → Nat → Arena → Arena
  | .node _ .nil, _, _, a => a
  | .node i (.cons t f), d, vis, a =>
    setCount (applyChainF (.cons t f) (d + 1) vis a) i
      (policy vis d (lenF (.cons t f)))
/-- Intended effect of the editor on a sibling chain whose members sit
at depth `d`. -/
def applyChainF : OForest → Nat → Nat → Arena → Arena
  | .nil, _, _, a => a
  | .cons t f, d, vis, a => applyChainF f d vis (applyNodeT t d vis a)
end

/- ### The document model: catalog, trailer, metadata -/

/-- In-memory document state, as far as the tool reads or mutates it:
`outlines` is the index of the outline root when `/Outlines` is present
(and truthy), `arena` the outline nodes, `docinfo` the trailer's
`/Info` dictionary (`none` when absent), `metadataStream` the presence
of the catalog's `/Metadata` XMP stream, `xmpKeys` the XMP property
set visible through `open_metadata`, and the remaining fields the
catalog entries the tool touches.  Reading `is_linearized` can fail in
`pikepdf`, hence `linearized` is fallible; the other reads the
inspector performs are total. -/
structure PdfDoc where
  outlines : Option Nat
  arena : Arena
  docinfo : Option (List (String × String))
  metadataStream : Bool
  xmpKeys : List String
  pageMode : Option String
  pageLayout : Option String
  markInfo : Bool
  structTreeRoot : Bool
  linearized : Except String Bool
  viewerPrefs : Bool

/-- Mirror of `str(...).replace('/Name.', '').replace('/', '')` used on
`/PageMode` and `/PageLayout` values (lines 28 and 35). -/
def stripName (s : String) : String :=
  (s.replace "/Name." "").replace "/" ""

/-- Mirror of `str(pdf.docinfo.get(k, 'None')) if pdf.docinfo else
'None'` (lines 45-60): the empty or absent Info dictionary is falsy and
yields the sentinel string. -/
def metaField (pdf : PdfDoc) (k : String) : String :=
  match pdf.docinfo with
  | some (p :: rest) => ((p :: rest).lookup k).getD "None"
  | _ => "None"

/-- The bookmark-structure classification of `get_pdf_properties`
(lines 66-75).  `int(first_bookmark.Count)` raises on a non-integer
`/Count`, which propagates to the function's outer handler: that case
is the `Except.error`. -/
def childBookmarksF (pdf : PdfDoc) : Except String String :=
  match pdf.outlines with
  | none => .ok "No Bookmarks"
  | some o =>
    match (getNode pdf.arena o).first with
    | none => .ok "No Bookmarks"
    | some fb =>
      match (getNode pdf.arena fb).first, (getNode pdf.arena fb).count with
      | some _, some (.num k) =>
        .ok (if k < 0 then "Collapsed" else "Expanded")
      | some _, some (.junk s) => .error ("invalid count: " ++ s)
      | _, _ => .ok "No Children"

/-- The property inspector `get_pdf_properties(pdf_path)` (lines 9-82).
The argument is the outcome of `Pdf.open`: on failure the outer
`except` yields a dictionary holding only an `Error` entry.  On
success the fields are extracted in source order into an ordered
key/value list; only the linearization check has an inner `try/except`
mapping failure to `"Unknown"`; a failure while classifying
`Child Bookmarks` falls through to the outer handler, which appends an
`Error` entry to whatever was extracted so far. -/
def get_pdf_properties (r : Except String PdfDoc) : List (String × String) :=
  match r with
  | .error e => [("Error", e)]
  | .ok pdf =>
    let props := [("Fast Web View",
      match pdf.linearized with
      | .ok b => if b then "Yes" else "No"
      | .error _ => "Unknown")]
    let props := props ++ [("Page Mode",
      match pdf.pageMode with
      | some s => stripName s
      | none => "Not Set")]
    let props := props ++ [("Page Layout",
      match pdf.pageLayout with
      | some s => stripName s
      | none => "Not Set")]
    let props := props ++
      [("Tagged PDF", if pdf.markInfo || pdf.structTreeRoot then "Yes" else "No")]
    let props := props ++ [("Title", metaField pdf "/Title")]
    let props := props ++ [("Author", metaField pdf "/Author")]
    let props := props ++ [("Subject", metaField pdf "/Subject")]
    let props := props ++ [("Keywords", metaField pdf "/Keywords")]
    let props := props ++ [("Creator", metaField pdf "/Creator")]
    let props := props ++ [("Producer", metaField pdf "/Producer")]
    let props := props ++
      [("XMP Metadata", if pdf.metadataStream then "Yes" else "No")]
    match childBookmarksF pdf with
    | .ok v => props ++ [("Child Bookmarks", v)]
    | .error e => props ++ [("Error", e)]

/-- The metadata scrubber `remove_metadata(pdf)` (lines 176-207), in
source order: delete the catalog's `/Metadata` stream if present; then
open the XMP editor view (`with pdf.open_metadata(...) as meta:`) and
delete every key of the XMP property set (with `update_docinfo=False`,
so `docinfo` is not touched by this step) — on leaving the `with`
block, `pikepdf`'s context manager writes the now-empty XMP packet
back, re-creating `pdf.Root.Metadata`, so after this step the
`/Metadata` stream is present again (holding an empty property set);
then delete the trailer's `/Info` entry if present; finally,
defensively empty a still-reachable Info dictionary. -/
def remove_metadata (pdf : PdfDoc) : PdfDoc :=
  let p1 := if pdf.metadataStream then { pdf with metadataStream := false } else pdf
  let p2 := { p1 with xmpKeys := [], metadataStream := true }
  let p3 := if p2.docinfo.isSome then { p2 with docinfo := none } else p2
  match p3.docinfo with
  | some (_ :: _) => { p3 with docinfo := some [] }
  | _ => p3

/-- The `has_bookmarks` test of `process_pdf` (lines 234-236):
`/Outlines` present and truthy with a `/First` entry. -/
def hasBookmarks (pdf : PdfDoc) : Bool :=
  match pdf.outlines with
  | some o => ((getNode pdf.arena o).first).isSome
  | none => false

/-- The in-memory mutation section of `process_pdf` (lines 229-260):
ensure `/ViewerPreferences` exists, set `/PageMode` to `UseOutlines`
and run `process_bookmarks` when bookmarks exist (else `UseNone`), set
`/PageLayout` to `SinglePage`, drop the tag-structure markers, then
scrub metadata. -/
def normalizeDoc (L s vis : Nat) (pdf : PdfDoc) : PdfDoc :=
  let p1 := if pdf.viewerPrefs then pdf else { pdf with viewerPrefs := true }
  let p2 :=
    if hasBookmarks p1 then
      { p1 with pageMode := some "/UseOutlines",
                arena := process_bookmarks L s p1.outlines p1.arena vis }
    else
      { p1 with pageMode := some "/UseNone" }
  let p3 := { p2 with pageLayout := some "/SinglePage" }
  let p4 := { p3 with markInfo := false, structTreeRoot := false }
  remove_metadata p4

/-- The fallible external operations `process_pdf` performs, in order:
opening the input, the first `pdf.save`, re-opening the output
(`allow_overwriting_input=True`; the reopened document is whatever the
writer produced, including writer-injected metadata), and the second
`pdf.save`. -/
structure PdfWorld where
  openInput : Except String PdfDoc
  saveFirst : PdfDoc → Except String Unit
  reopen : Except String PdfDoc
  saveSecond : PdfDoc → Except String Unit

/-- The per-file pipeline `process_pdf(input_path, output_path,
bookmark_levels)` (lines 209-279).  Returns the `(success, message)`
pair of the source together with the number of document handles that
were opened by this call and are still open when it returns.  The
source has no `finally`: when a save raises, the `except` branch
returns `(False, str(e))` with the current handle left open. -/
def process_pdf (L s : Nat) (w : PdfWorld) (bookmark_levels : Nat) :
    (Bool × String) × Nat :=
  match w.openInput with
  | .error e => ((false, e), 0)
  | .ok pdf0 =>
    let pdf := normalizeDoc L s bookmark_levels pdf0
    match w.saveFirst pdf with
    | .error e => ((false, e), 1)
    | .ok _ =>
      match w.reopen with
      | .error e => ((false, e), 0)
      | .ok pdf2 =>
        let pdf3 := remove_metadata pdf2
        match w.saveSecond pdf3 with
        | .error e => ((false, e), 1)
        | .ok _ => ((true, "Success"), 0)

/- ### Frame relations between arenas -/

/-- Arenas `a` and `b` agree on everything except possibly `/Count`
values: same length and, at every index, the same `/First`, `/Next`
and remaining (`title`) entries. -/
def structEq (a b : Arena) : Prop :=
  a.length = b.length ∧
    ∀ j, (getNode b j).first = (getNode a j).first ∧
      (getNode b j).next = (getNode a j).next ∧
      (getNode b j).title = (getNode a j).title

/-- Arena `b` agrees with `a` on the `/Count` of every node that has no
children (no `/First` entry). -/
def countFrame (a b : Arena) : Prop :=
  ∀ j, (getNode a j).first = none → (getNode b j).count = (getNode a j).count

/-- Strip the exception marker off a completed-or-aborted call's arena
state. -/
def exEA (r : Except Arena Arena) : Arena :=
  match r with
  | .error b => b
  | .ok b => b

/-- Strip the exception marker off a sibling-walk result's arena
state. -/
def exLA (r : Except Arena (Arena × Nat)) : Arena :=
  match r with
  | .error b => b
  | .ok (b, _) => b

/- ### Concrete data used by witnesses and counterexamples -/

/-- A three-level outline: top-level bookmarks A (children A1, A2) and
B (child B1), with A1 having one child A1a; index 0 is the outline
root. -/
def exArena : Arena :=
  [⟨some 1, none, none, "root"⟩,
   ⟨some 3, some 2, none, "A"⟩,
   ⟨some 5, none, none, "B"⟩,
   ⟨some 6, some 4, none, "A1"⟩,
   ⟨none, none, none, "A2"⟩,
   ⟨none, none, none, "B1"⟩,
   ⟨none, none, none, "A1a"⟩]

/-- The abstract forest of the two top-level bookmarks of `exArena`. -/
def exForest : OForest :=
  .cons (.node 1 (.cons (.node 3 (.cons (.node 6 .nil) .nil))
                 (.cons (.node 4 .nil) .nil)))
  (.cons (.node 2 (.cons (.node 5 .nil) .nil)) .nil)

/-- An outline whose root carries a stale `/Count` of 5 although it has
exactly one child, which itself carries a stale `/Count` of 3 although
it has no children. -/
def staleArena : Arena :=
  [⟨some 1, none, some (.num 5), "root"⟩,
   ⟨none, none, some (.num 3), "a"⟩]

/-- A two-level outline: one top-level bookmark A with a single child
A1. -/
def smallArena : Arena :=
  [⟨some 1, none, none, "root"⟩,
   ⟨some 2, none, none, "A"⟩,
   ⟨none, none, none, "A1"⟩]

/-- A malformed outline: the top-level bookmark `bad` (index 1) has
child `mid` (index 2), and `mid` lists its own ancestor `bad` as its
child — a back-edge cycle.  A well-formed sibling, `good` (index 3)
with child `leaf`, follows. -/
def cycArena : Arena :=
  [⟨some 1, none, none, "root"⟩,
   ⟨some 2, some 3, none, "bad"⟩,
   ⟨some 1, none, none, "mid"⟩,
   ⟨some 4, none, none, "good"⟩,
   ⟨none, none, none, "leaf"⟩]

/-- The abstract forest of the well-formed part of `cycArena` that
follows the cyclic top-level bookmark. -/
def cycGoodForest : OForest :=
  .cons (.node 3 (.cons (.node 4 .nil) .nil)) .nil

/-- A document whose first top-level bookmark has a child but a
non-integer `/Count`: `int()` raises while classifying
`Child Bookmarks`. -/
def junkCountDoc : PdfDoc :=
  { outlines := some 0,
    arena := [⟨some 1, none, none, "root"⟩,
              ⟨some 2, none, some (.junk "oops"), "bm"⟩,
              ⟨none, none, none, "leaf"⟩],
    docinfo := some [("/Title", "T")],
    metadataStream := true,
    xmpKeys := ["dc:title"],
    pageMode := some "/UseOutlines",
    pageLayout := none,
    markInfo := false,
    structTreeRoot := false,
    linearized := .ok true,
    viewerPrefs := false }

/-- A well-behaved document: one top-level bookmark with a child and an
integer collapsed `/Count`. -/
def plainDoc : PdfDoc :=
  { outlines := some 0,
    arena := [⟨some 1, none, none, "root"⟩,
              ⟨some 2, none, some (.num (-1)), "bm"⟩,
              ⟨none, none, none, "leaf"⟩],
    docinfo := some [("/Title", "T"), ("/Author", "A")],
    metadataStream := true,
    xmpKeys := ["dc:title"],
    pageMode := some "/Name.UseOutlines",
    pageLayout := some "/SinglePage",
    markInfo := true,
    structTreeRoot := false,
    linearized := .error "cannot determine",
    viewerPrefs := true }

/-- A document whose first top-level bookmark has a child but no
`/Count` entry at all. -/
def noCountDoc : PdfDoc :=
  { outlines := some 0,
    arena := [⟨some 1, none, none, "root"⟩,
              ⟨some 2, none, none, "bm"⟩,
              ⟨none, none, none, "leaf"⟩],
    docinfo := none,
    metadataStream := false,
    xmpKeys := [],
    pageMode := none,
    pageLayout := none,
    markInfo := false,
    structTreeRoot := false,
    linearized := .ok false,
    viewerPrefs := false }

/-- A world in which everything succeeds. -/
def okWorld : PdfWorld :=
  { openInput := .ok plainDoc,
    saveFirst := fun _ => .ok (),
    reopen := .ok plainDoc,
    saveSecond := fun _ => .ok () }

/-- A world in which the first `pdf.save` raises (for instance, the
disk is full). -/
def badSaveWorld : PdfWorld :=
  { openInput := .ok plainDoc,
    saveFirst := fun _ => .error "disk full",
    reopen := .ok plainDoc,
    saveSecond := fun _ => .ok () }

/- ### Basic lemmas about the arena primitives -/

theorem length_setCount (a : Arena) (i : Nat) (v : Int) :
    (setCount a i v).length = a.length := by
  simp [setCount]

theorem getNode_setCount_ne (a : Arena) (i j : Nat) (v : Int) (h : j ≠ i) :
    getNode (setCount a i v) j = getNode a j := by
  simp [getNode, setCount, List.getD_eq_getElem?_getD,
    List.getElem?_set_ne (Ne.symm h)]

theorem getNode_setCount_self (a : Arena) (i : Nat) (v : Int)
    (h : i < a.length) :
    getNode (setCount a i v) i = { getNode a i with count := some (.num v) } := by
  simp [getNode, setCount, List.getD_eq_getElem?_getD,
    List.getElem?_set_self h]

theorem getNode_setCount_out (a : Arena) (i j : Nat) (v : Int)
    (h : a.length ≤ i) :
    getNode (setCount a i v) j = getNode a j := by
  simp [setCount, List.set_eq_of_length_le h]

theorem structEq_refl (a : Arena) : structEq a a :=
  ⟨rfl, fun _ => ⟨rfl, rfl, rfl⟩⟩

theorem structEq_trans {a b c : Arena} (h1 : structEq a b)
    (h2 : structEq b c) : structEq a c := by
  refine ⟨h1.1.trans h2.1, fun j => ?_⟩
  obtain ⟨x1, x2, x3⟩ := h1.2 j
  obtain ⟨y1, y2, y3⟩ := h2.2 j
  exact ⟨y1.trans x1, y2.trans x2, y3.trans x3⟩

theorem setCount_structEq (a : Arena) (i : Nat) (v : Int) :
    structEq a (setCount a i v) := by
  refine ⟨(length_setCount a i v).symm, fun j => ?_⟩
  rcases Nat.lt_or_ge i a.length with hi | hi
  · rcases eq_or_ne j i with rfl | hj
    · rw [getNode_setCount_self a j v hi]
      exact ⟨rfl, rfl, rfl⟩
    · rw [getNode_setCount_ne a i j v hj]
      exact ⟨rfl, rfl, rfl⟩
  · rw [getNode_setCount_out a i j v hi]
    exact ⟨rfl, rfl, rfl⟩

theorem countFrame_refl (a : Arena) : countFrame a a := fun _ _ => rfl

theorem countFrame_trans {a b c : Arena} (hab : structEq a b)
    (h1 : countFrame a b) (h2 : countFrame b c) : countFrame a c := by
  intro j hj
  have hb : (getNode b j).first = none := ((hab.2 j).1).trans hj
  exact (h2 j hb).trans (h1 j hj)

theorem arena_ext {a b : Arena} (hlen : a.length = b.length)
    (h : ∀ j, getNode a j = getNode b j) : a = b := by
  refine List.ext_getElem hlen fun n h1 h2 => ?_
  have := h n
  rwa [getNode, getNode, List.getD_eq_getElem a _ h1,
    List.getD_eq_getElem b _ h2] at this

/- ### The editor never touches anything but counts (any input, any fuel) -/

theorem frame_setCount_of_first_some {a b : Arena} {i c : Nat} (v : Int)
    (hfirst : (getNode a i).first = some c)
    (hs : structEq a b) (hc : countFrame a b) :
    structEq a (setCount b i v) ∧ countFrame a (setCount b i v) := by
  constructor
  · exact structEq_trans hs (setCount_structEq b i v)
  · intro j hj
    have hji : j ≠ i := by
      intro h
      rw [h, hfirst] at hj
      exact Option.noConfusion hj
    rw [getNode_setCount_ne b i j v hji]
    exact hc j hj

theorem collapseLoop_frame (rec : Arena → Nat → Nat → Except Arena Arena)
    (hrec : ∀ b j lvl, structEq b (exEA (rec b j lvl)) ∧
      countFrame b (exEA (rec b j lvl))) :
    ∀ (lf : Nat) (a : Arena) (c : Option Nat) (lvl cnt : Nat),
      structEq a (exLA (collapseLoop rec lf a c lvl cnt)) ∧
      countFrame a (exLA (collapseLoop rec lf a c lvl cnt)) := by
  intro lf
  induction lf with
  | zero =>
    intro a c lvl cnt
    cases c with
    | none =>
      simp only [collapseLoop, exLA]
      exact ⟨structEq_refl a, countFrame_refl a⟩
    | some c0 =>
      simp only [collapseLoop, exLA]
      exact ⟨structEq_refl a, countFrame_refl a⟩
  | succ lf ih =>
    intro a c lvl cnt
    cases c with
    | none =>
      simp only [collapseLoop, exLA]
      exact ⟨structEq_refl a, countFrame_refl a⟩
    | some c0 =>
      have h1 := hrec a c0 (lvl + 1)
      cases hr : rec a c0 (lvl + 1) with
      | error a2 =>
        rw [hr] at h1
        simp only [collapseLoop, hr, exLA]
        exact h1
      | ok a2 =>
        rw [hr] at h1
        simp only [exEA] at h1
        have h2 := ih a2 ((getNode a2 c0).next) lvl (cnt + 1)
        simp only [collapseLoop, hr]
        exact ⟨structEq_trans h1.1 h2.1,
          countFrame_trans h1.1 h1.2 h2.2⟩

theorem collapse_child_bookmarks_frame (L : Nat) :
    ∀ (s : Nat) (a : Arena) (i lvl vis : Nat),
      structEq a (exEA (collapse_child_bookmarks L s a i lvl vis)) ∧
      countFrame a (exEA (collapse_child_bookmarks L s a i lvl vis)) := by
  intro s
  induction s with
  | zero =>
    intro a i lvl vis
    simp only [collapse_child_bookmarks, exEA]
    exact ⟨structEq_refl a, countFrame_refl a⟩
  | succ s ih =>
    intro a i lvl vis
    simp only [collapse_child_bookmarks, exEA]
    split
    · exact ⟨structEq_refl a, countFrame_refl a⟩
    · rename_i c hf
      have hloop := collapseLoop_frame
        (fun b j lvl2 => collapse_child_bookmarks L s b j lvl2 vis)
        (fun b j lvl2 => ih b j lvl2 vis) L a (some c) lvl 0
      split
      · rename_i a2 heq
        rw [heq] at hloop
        simpa only [exLA] using hloop
      · rename_i a2 cnt heq
        rw [heq] at hloop
        simp only [exLA] at hloop
        split
        · split
          · exact frame_setCount_of_first_some _ hf hloop.1 hloop.2
          · split
            · exact frame_setCount_of_first_some _ hf hloop.1 hloop.2
            · exact frame_setCount_of_first_some _ hf hloop.1 hloop.2
        · exact hloop

theorem topLoop_frame (L : Nat) :
    ∀ (lf s : Nat) (a : Arena) (cur vis : Nat),
      structEq a (topLoop L lf s a cur vis) ∧
      countFrame a (topLoop L lf s a cur vis) := by
  intro lf
  induction lf with
  | zero =>
    intro s a cur vis
    simp only [topLoop]
    exact ⟨structEq_refl a, countFrame_refl a⟩
  | succ lf ih =>
    intro s a cur vis
    have h1 := collapse_child_bookmarks_frame L s a cur 1 vis
    simp only [topLoop]
    split
    case h_1 a2 heq =>
      rw [heq] at h1
      simpa only [exEA] using h1
    case h_2 a2 heq =>
      rw [heq] at h1
      simp only [exEA] at h1
      split
      case h_1 hn => exact h1
      case h_2 nxt hn =>
        have h2 := ih s a2 nxt vis
        exact ⟨structEq_trans h1.1 h2.1, countFrame_trans h1.1 h1.2 h2.2⟩

theorem process_bookmarks_frame (L s : Nat) (o : Option Nat) (a : Arena)
    (vis : Nat) :
    structEq a (process_bookmarks L s o a vis) ∧
    countFrame a (process_bookmarks L s o a vis) := by
  cases o with
  | none =>
    simp only [process_bookmarks]
    exact ⟨structEq_refl a, countFrame_refl a⟩
  | some o0 =>
    simp only [process_bookmarks]
    cases hf : (getNode a o0).first with
    | none => exact ⟨structEq_refl a, countFrame_refl a⟩
    | some c => exact topLoop_frame L L s a c vis

/- ### The abstract forest view: basic facts -/

theorem chainRepB_none {a : Arena} {f : OForest}
    (h : chainRepB a none f = true) : f = .nil := by
  cases f with
  | nil => rfl
  | cons t f2 => simp [chainRepB] at h

theorem chainRepB_some {a : Arena} {c : Nat} {f : OForest}
    (h : chainRepB a (some c) f = true) :
    ∃ t f2, f = .cons t f2 ∧ nodeRepB a c t = true ∧
      chainRepB a (getNode a c).next f2 = true := by
  cases f with
  | nil => simp [chainRepB] at h
  | cons t f2 =>
    simp only [chainRepB, Bool.and_eq_true] at h
    exact ⟨t, f2, rfl, h.1, h.2⟩

theorem nodeRepB_node {a : Arena} {i : Nat} {j : Nat} {f : OForest}
    (h : nodeRepB a i (.node j f) = true) :
    i = j ∧ i < a.length ∧ chainRepB a (getNode a i).first f = true := by
  simp only [nodeRepB, Bool.and_eq_true, beq_iff_eq, decide_eq_true_eq] at h
  exact ⟨h.1.1, h.1.2, h.2⟩

mutual
theorem nodeRepB_congr {a b : Arena} (h : structEq a b) :
    ∀ (t : OTree) (i : Nat), nodeRepB b i t = nodeRepB a i t
  | .node j f, i => by
    have hc := chainRepB_congr h f (getNode a i).first
    have hx : (getNode b i).first = (getNode a i).first := (h.2 i).1
    simp only [nodeRepB, hx, hc, h.1]
theorem chainRepB_congr {a b : Arena} (h : structEq a b) :
    ∀ (f : OForest) (c : Option Nat), chainRepB b c f = chainRepB a c f
  | .nil, c => by cases c <;> simp [chainRepB]
  | .cons t f, c => by
    cases c with
    | none => simp [chainRepB]
    | some c0 =>
      have h1 := nodeRepB_congr h t c0
      have h2 := chainRepB_congr h f (getNode a c0).next
      have hx : (getNode b c0).next = (getNode a c0).next := (h.2 c0).2.1
      simp only [chainRepB, hx, h1, h2]
end

mutual
theorem applyNodeT_structEq : ∀ (t : OTree) (d vis : Nat) (a : Arena),
    structEq a (applyNodeT t d vis a)
  | .node _ .nil, _, _, a => by
    simpa only [applyNodeT] using structEq_refl a
  | .node i (.cons t f), d, vis, a => by
    have h1 := applyChainF_structEq (.cons t f) (d + 1) vis a
    simpa only [applyNodeT] using
      structEq_trans h1 (setCount_structEq _ i _)
theorem applyChainF_structEq : ∀ (f : OForest) (d vis : Nat) (a : Arena),
    structEq a (applyChainF f d vis a)
  | .nil, _, _, a => by simpa only [applyChainF] using structEq_refl a
  | .cons t f, d, vis, a => by
    have h1 := applyNodeT_structEq t d vis a
    have h2 := applyChainF_structEq f d vis (applyNodeT t d vis a)
    simpa only [applyChainF] using structEq_trans h1 h2
end

mutual
theorem idxsT_eq_map_fst : ∀ (t : OTree) (d : Nat),
    (nodesT t d).map Prod.fst = idxsT t
  | .node i f, d => by
    simp only [nodesT, idxsT, List.map_append, idxsF_eq_map_fst f (d + 1),
      List.map_cons, List.map_nil]
theorem idxsF_eq_map_fst : ∀ (f : OForest) (d : Nat),
    (nodesF f d).map Prod.fst = idxsF f
  | .nil, _ => rfl
  | .cons t f, d => by
    simp only [nodesF, idxsF, List.map_append, idxsT_eq_map_fst t d,
      idxsF_eq_map_fst f d]
end

theorem mem_idxsF_of_mem_nodesF {f : OForest} {d : Nat} {j dj k : Nat}
    (h : (j, dj, k) ∈ nodesF f d) : j ∈ idxsF f := by
  rw [← idxsF_eq_map_fst f d]
  exact List.mem_map.mpr ⟨(j, dj, k), h, rfl⟩

mutual
theorem nodesT_depth_ge : ∀ (t : OTree) (d : Nat) {j dj k : Nat},
    (j, dj, k) ∈ nodesT t d → d ≤ dj
  | .node i f, d, j, dj, k => by
    intro h
    simp only [nodesT, List.mem_append, List.mem_singleton] at h
    rcases h with h | h
    · exact le_trans (Nat.le_succ d) (nodesF_depth_ge f (d + 1) h)
    · cases h
      exact le_refl d
theorem nodesF_depth_ge : ∀ (f : OForest) (d : Nat) {j dj k : Nat},
    (j, dj, k) ∈ nodesF f d → d ≤ dj
  | .nil, d, j, dj, k => by
    intro h
    simp [nodesF] at h
  | .cons t f, d, j, dj, k => by
    intro h
    simp only [nodesF, List.mem_append] at h
    rcases h with h | h
    · exact nodesT_depth_ge t d h
    · exact nodesF_depth_ge f d h
end

mutual
theorem repT_lt_length {a : Arena} : ∀ {t : OTree} {i : Nat},
    nodeRepB a i t = true → ∀ x ∈ idxsT t, x < a.length
  | .node j f, i => by
    intro h x hx
    obtain ⟨rfl, hlen, hchain⟩ := nodeRepB_node h
    simp only [idxsT, List.mem_append, List.mem_singleton] at hx
    rcases hx with hx | rfl
    · exact repF_lt_length hchain x hx
    · exact hlen
theorem repF_lt_length {a : Arena} : ∀ {f : OForest} {c : Option Nat},
    chainRepB a c f = true → ∀ x ∈ idxsF f, x < a.length
  | .nil, c => by intro _ x hx; simp [idxsF] at hx
  | .cons t f, c => by
    intro h x hx
    cases c with
    | none => simp [chainRepB] at h
    | some c0 =>
      simp only [chainRepB, Bool.and_eq_true] at h
      simp only [idxsF, List.mem_append] at hx
      rcases hx with hx | hx
      · exact repT_lt_length h.1 x hx
      · exact repF_lt_length h.2 x hx
end

/- ### Characterisation of the intended effect `applyNodeT` -/

mutual
theorem applyNodeT_outside : ∀ (t : OTree) (d vis : Nat) (a : Arena) (j : Nat),
    j ∉ idxsT t → getNode (applyNodeT t d vis a) j = getNode a j
  | .node i .nil, _, _, a, j => by
    intro _
    simp only [applyNodeT]
  | .node i (.cons t f), d, vis, a, j => by
    intro h
    simp only [idxsT, List.mem_append, List.mem_singleton, not_or] at h
    simp only [applyNodeT]
    rw [getNode_setCount_ne _ _ _ _ h.2]
    exact applyChainF_outside (.cons t f) (d + 1) vis a j h.1
theorem applyChainF_outside : ∀ (f : OForest) (d vis : Nat) (a : Arena) (j : Nat),
    j ∉ idxsF f → getNode (applyChainF f d vis a) j = getNode a j
  | .nil, _, _, a, j => by
    intro _
    simp only [applyChainF]
  | .cons t f, d, vis, a, j => by
    intro h
    simp only [idxsF, List.mem_append, not_or] at h
    simp only [applyChainF]
    rw [applyChainF_outside f d vis _ j h.2,
      applyNodeT_outside t d vis a j h.1]
end

mutual
theorem applyNodeT_char : ∀ (t : OTree) (d vis : Nat) (a : Arena) (j dj k : Nat),
    (idxsT t).Nodup → (∀ x ∈ idxsT t, x < a.length) →
    (j, dj, k) ∈ nodesT t d →
    getNode (applyNodeT t d vis a) j =
      (if k = 0 then getNode a j
       else { getNode a j with count := some (.num (policy vis dj k)) })
  | .node i .nil, d, vis, a, j, dj, k => by
    intro _ _ hmem
    simp only [nodesT, nodesF, lenF, List.nil_append, List.mem_singleton,
      Prod.mk.injEq] at hmem
    obtain ⟨rfl, rfl, rfl⟩ := hmem
    simp [applyNodeT]
  | .node i (.cons t f), d, vis, a, j, dj, k => by
    intro hnd hrange hmem
    have hnd2 := (List.nodup_append.mp (by simpa only [idxsT] using hnd))
    simp only [nodesT, List.mem_append, List.mem_singleton, Prod.mk.injEq]
      at hmem
    simp only [applyNodeT]
    rcases hmem with hmem | hmem
    · have hj : j ∈ idxsF (.cons t f) := mem_idxsF_of_mem_nodesF hmem
      have hji : j ≠ i := by
        intro h
        exact hnd2.2.2 hj (by simp [h])
      rw [getNode_setCount_ne _ _ _ _ hji]
      exact applyChainF_char (.cons t f) (d + 1) vis a j dj k hnd2.1
        (fun x hx => hrange x
          (by simp only [idxsT, List.mem_append]; exact Or.inl hx))
        hmem
    · obtain ⟨hji, hdj, hk⟩ := hmem
      have hi : i ∉ idxsF (.cons t f) := fun h => hnd2.2.2 h (by simp)
      have hlen : i < (applyChainF (.cons t f) (d + 1) vis a).length := by
        rw [← (applyChainF_structEq (.cons t f) (d + 1) vis a).1]
        exact hrange i (by simp [idxsT])
      rw [hji, hdj, hk, getNode_setCount_self _ _ _ hlen,
        applyChainF_outside (.cons t f) (d + 1) vis a i hi,
        if_neg (by simp [lenF])]
theorem applyChainF_char : ∀ (f : OForest) (d vis : Nat) (a : Arena) (j dj k : Nat),
    (idxsF f).Nodup → (∀ x ∈ idxsF f, x < a.length) →
    (j, dj, k) ∈ nodesF f d →
    getNode (applyChainF f d vis a) j =
      (if k = 0 then getNode a j
       else { getNode a j with count := some (.num (policy vis dj k)) })
  | .nil, d, vis, a, j, dj, k => by
    intro _ _ hmem
    simp [nodesF] at hmem
  | .cons t f, d, vis, a, j, dj, k => by
    intro hnd hrange hmem
    have hnd2 := (List.nodup_append.mp (by simpa only [idxsF] using hnd))
    simp only [nodesF, List.mem_append] at hmem
    simp only [applyChainF]
    rcases hmem with hmem | hmem
    · have hj : j ∈ idxsT t := by
        rw [← idxsT_eq_map_fst t d]
        exact List.mem_map.mpr ⟨(j, dj, k), hmem, rfl⟩
      have hj2 : j ∉ idxsF f := fun h => hnd2.2.2 hj h
      rw [applyChainF_outside f d vis _ j hj2]
      exact applyNodeT_char t d vis a j dj k hnd2.1
        (fun x hx => hrange x (by simp only [idxsF, List.mem_append]; exact Or.inl hx))
        hmem
    · have hj : j ∈ idxsF f := mem_idxsF_of_mem_nodesF hmem
      have hj2 : j ∉ idxsT t := fun h => hnd2.2.2 h hj
      rw [applyChainF_char f d vis (applyNodeT t d vis a) j dj k hnd2.2.1
        (fun x hx => by
          rw [← (applyNodeT_structEq t d vis a).1]
          exact hrange x (by simp only [idxsF, List.mem_append]; exact Or.inr hx))
        hmem, applyNodeT_outside t d vis a j hj2]
end

/- ### The fueled editor computes the intended effect on well-formed trees -/

theorem setCount_sign_policy (b : Arena) (i : Nat) (vis lvl cnt : Nat) :
    (if vis = 0 then setCount b i (cnt : Int)
     else if vis ≤ lvl then setCount b i (-(cnt : Int))
     else setCount b i (cnt : Int)) = setCount b i (policy vis lvl cnt) := by
  by_cases h0 : vis = 0
  · simp [policy, h0]
  · by_cases h1 : vis ≤ lvl
    · simp [policy, h0, h1]
    · simp [policy, h0, h1]

theorem collapseLoop_sim (L vis lvl S : Nat)
    (rec : Arena → Nat → Nat → Except Arena Arena)
    (hrec : ∀ (b : Arena) (c : Nat) (t : OTree), nodeRepB b c t = true →
      htT t ≤ S → wdT t ≤ L →
      rec b c (lvl + 1) = .ok (applyNodeT t (lvl + 1) vis b)) :
    ∀ (f : OForest) (c : Option Nat) (lf : Nat) (a : Arena) (cnt : Nat),
      chainRepB a c f = true → htF f ≤ S → wdF f ≤ L → lenF f ≤ lf →
      collapseLoop rec lf a c lvl cnt =
        .ok (applyChainF f (lvl + 1) vis a, cnt + lenF f)
  | .nil, c, lf, a, cnt => by
    intro hrep _ _ _
    cases c with
    | none => simp [collapseLoop, applyChainF, lenF]
    | some c0 => simp [chainRepB] at hrep
  | .cons t f, c, lf, a, cnt => by
    intro hrep hht hwd hlen
    cases c with
    | none => simp [chainRepB] at hrep
    | some c0 =>
      simp only [chainRepB, Bool.and_eq_true] at hrep
      cases lf with
      | zero => simp [lenF] at hlen
      | succ lf =>
        have hcall := hrec a c0 t hrep.1
          (le_trans (le_max_left _ _) (by simpa [htF] using hht))
          (le_trans (le_max_left _ _) (by simpa [wdF] using hwd))
        simp only [collapseLoop, hcall]
        have hse := applyNodeT_structEq t (lvl + 1) vis a
        have hnext : (getNode (applyNodeT t (lvl + 1) vis a) c0).next =
            (getNode a c0).next := (hse.2 c0).2.1
        rw [hnext]
        have hrep2 : chainRepB (applyNodeT t (lvl + 1) vis a)
            ((getNode a c0).next) f = true := by
          rw [chainRepB_congr hse f _]
          exact hrep.2
        rw [collapseLoop_sim L vis lvl S rec hrec f ((getNode a c0).next) lf _
          (cnt + 1) hrep2
          (le_trans (le_max_right _ _) (by simpa [htF] using hht))
          (le_trans (le_max_right _ _) (by simpa [wdF] using hwd))
          (by simp only [lenF] at hlen; omega)]
        simp only [applyChainF, lenF, Except.ok.injEq, Prod.mk.injEq]
        exact ⟨trivial, by omega⟩

theorem collapse_child_bookmarks_sim (L : Nat) :
    ∀ (s : Nat) (t : OTree) (a : Arena) (i lvl vis : Nat),
      nodeRepB a i t = true → htT t ≤ s → wdT t ≤ L →
      collapse_child_bookmarks L s a i lvl vis =
        .ok (applyNodeT t lvl vis a) := by
  intro s
  induction s with
  | zero =>
    intro t a i lvl vis _ hht _
    cases t with
    | node j f => simp [htT] at hht
  | succ s ih =>
    intro t a i lvl vis hrep hht hwd
    cases t with
    | node j f =>
      obtain ⟨rfl, hlen, hchain⟩ := nodeRepB_node hrep
      cases f with
      | nil =>
        have hnone : (getNode a i).first = none := by
          cases hx : (getNode a i).first with
          | none => rfl
          | some c =>
            rw [hx] at hchain
            simp [chainRepB] at hchain
        simp [collapse_child_bookmarks, hnone, applyNodeT]
      | cons t0 f0 =>
        obtain ⟨c, hx⟩ : ∃ c, (getNode a i).first = some c := by
          cases hx : (getNode a i).first with
          | none =>
            rw [hx] at hchain
            simp [chainRepB] at hchain
          | some c => exact ⟨c, rfl⟩
        rw [hx] at hchain
        have hloop := collapseLoop_sim L vis lvl s
          (fun b jj lvl2 => collapse_child_bookmarks L s b jj lvl2 vis)
          (fun b cc tt hr hh hw => ih tt b cc (lvl + 1) vis hr hh hw)
          (.cons t0 f0) (some c) L a 0 hchain
          (by simp only [htT] at hht; omega)
          (le_trans (le_max_right _ _) (by simpa [wdT] using hwd))
          (le_trans (le_max_left _ _) (by simpa [wdT] using hwd))
        simp only [collapse_child_bookmarks, hx, hloop]
        have hpos : 0 < 0 + lenF (.cons t0 f0) := by simp [lenF]
        rw [if_pos hpos]
        simp only [Nat.zero_add]
        rw [setCount_sign_policy]
        simp only [applyNodeT]

theorem topLoop_sim (L vis : Nat) :
    ∀ (f : OForest) (t : OTree) (lf s : Nat) (a : Arena) (c : Nat),
      chainRepB a (some c) (.cons t f) = true →
      htF (.cons t f) ≤ s → wdF (.cons t f) ≤ L → lenF (.cons t f) ≤ lf →
      topLoop L lf s a c vis = applyChainF (.cons t f) 1 vis a
  | .nil, t, lf, s, a, c => by
    intro hrep hht hwd hlen
    simp only [chainRepB, Bool.and_eq_true] at hrep
    cases lf with
    | zero => simp [lenF] at hlen
    | succ lf =>
      have hcall := collapse_child_bookmarks_sim L s t a c 1 vis hrep.1
        (by simp only [htF] at hht; omega)
        (by simp only [wdF] at hwd; omega)
      simp only [topLoop, hcall]
      have hse := applyNodeT_structEq t 1 vis a
      have hnext : (getNode (applyNodeT t 1 vis a) c).next =
          (getNode a c).next := (hse.2 c).2.1
      have hnone : (getNode a c).next = none := by
        cases hx : (getNode a c).next with
        | none => rfl
        | some c2 =>
          rw [hx] at hrep
          have h2 := hrep.2
          simp [chainRepB] at h2
      simp only [hnext, hnone]
      simp [applyChainF]
  | .cons t2 f2, t, lf, s, a, c => by
    intro hrep hht hwd hlen
    simp only [chainRepB, Bool.and_eq_true] at hrep
    cases lf with
    | zero => simp [lenF] at hlen
    | succ lf =>
      have hcall := collapse_child_bookmarks_sim L s t a c 1 vis hrep.1
        (by simp only [htF] at hht; omega)
        (by simp only [wdF] at hwd; omega)
      simp only [topLoop, hcall]
      have hse := applyNodeT_structEq t 1 vis a
      have hnext : (getNode (applyNodeT t 1 vis a) c).next =
          (getNode a c).next := (hse.2 c).2.1
      obtain ⟨c2, hc2⟩ : ∃ c2, (getNode a c).next = some c2 := by
        cases hx : (getNode a c).next with
        | none =>
          rw [hx] at hrep
          have h2 := hrep.2
          simp [chainRepB] at h2
        | some c2 => exact ⟨c2, rfl⟩
      simp only [hnext, hc2]
      have hrepn : chainRepB (applyNodeT t 1 vis a) (some c2)
          (.cons t2 f2) = true := by
        rw [chainRepB_congr hse]
        rw [hc2] at hrep
        exact hrep.2
      rw [topLoop_sim L vis f2 t2 lf s (applyNodeT t 1 vis a) c2 hrepn
        (by simp only [htF] at hht ⊢; omega)
        (by simp only [wdF] at hwd ⊢; omega)
        (by simp only [lenF] at hlen ⊢; omega)]
      simp [applyChainF]

theorem process_bookmarks_sim (L s vis o : Nat) (f : OForest) (a : Arena)
    (hrep : nodeRepB a o (.node o f) = true)
    (hht : htF f ≤ s) (hwd : wdF f ≤ L) (hlen : lenF f ≤ L) :
    process_bookmarks L s (some o) a vis = applyChainF f 1 vis a := by
  obtain ⟨-, -, hchain⟩ := nodeRepB_node hrep
  cases f with
  | nil =>
    have hnone : (getNode a o).first = none := by
      cases hx : (getNode a o).first with
      | none => rfl
      | some c =>
        rw [hx] at hchain
        simp [chainRepB] at hchain
    simp [process_bookmarks, hnone, applyChainF]
  | cons t f0 =>
    obtain ⟨c, hx⟩ : ∃ c, (getNode a o).first = some c := by
      cases hx : (getNode a o).first with
      | none =>
        rw [hx] at hchain
        simp [chainRepB] at hchain
      | some c => exact ⟨c, rfl⟩
    rw [hx] at hchain
    simp only [process_bookmarks, hx]
    exact topLoop_sim L vis f0 t L s a c hchain
      (by simpa [htF] using hht) (by simpa [wdF] using hwd)
      (by simpa [lenF] using hlen)

/- ### Derived characterisation of `process_bookmarks` -/

theorem policy_eq_spec (vis d k : Nat) :
    policy vis d k = if vis = 0 ∨ d < vis then (k : Int) else -(k : Int) := by
  unfold policy
  by_cases h0 : vis = 0
  · simp [h0]
  · by_cases h1 : vis ≤ d
    · have h2 : ¬ d < vis := by omega
      simp [h0, h1, h2]
    · have h2 : d < vis := by omega
      simp [h0, h1, h2]

theorem policy_natAbs (vis d k : Nat) : (policy vis d k).natAbs = k := by
  unfold policy
  by_cases h0 : vis = 0
  · simp [h0]
  · by_cases h1 : vis ≤ d
    · simp [h0, h1]
    · simp [h0, h1]

theorem policy_one (d k : Nat) (hd : 1 ≤ d) : policy 1 d k = -(k : Int) := by
  unfold policy
  simp [Nat.one_le_iff_ne_zero.mp hd, hd]

theorem process_bookmarks_mem (L s vis o : Nat) (f : OForest) (a : Arena)
    (hrep : nodeRepB a o (.node o f) = true)
    (hnd : (idxsT (.node o f)).Nodup)
    (hht : htF f ≤ s) (hwd : wdF f ≤ L) (hlen : lenF f ≤ L)
    (j dj k : Nat) (hmem : (j, dj, k) ∈ nodesF f 1) :
    getNode (process_bookmarks L s (some o) a vis) j =
      (if k = 0 then getNode a j
       else { getNode a j with count := some (.num (policy vis dj k)) }) := by
  rw [process_bookmarks_sim L s vis o f a hrep hht hwd hlen]
  have hnd2 := List.nodup_append.mp (by simpa [idxsT] using hnd)
  obtain ⟨-, -, hchain⟩ := nodeRepB_node hrep
  exact applyChainF_char f 1 vis a j dj k hnd2.1
    (fun x hx => repF_lt_length hchain x hx) hmem

theorem process_bookmarks_outside (L s vis o : Nat) (f : OForest) (a : Arena)
    (hrep : nodeRepB a o (.node o f) = true)
    (hht : htF f ≤ s) (hwd : wdF f ≤ L) (hlen : lenF f ≤ L)
    (j : Nat) (hj : j ∉ idxsF f) :
    getNode (process_bookmarks L s (some o) a vis) j = getNode a j := by
  rw [process_bookmarks_sim L s vis o f a hrep hht hwd hlen]
  exact applyChainF_outside f 1 vis a j hj

/- ### Claims about the visibility editor -/

/-- C1, counterexample.  In `staleArena` the outline root (index 0) has
exactly one direct child reachable from its `/First` pointer, but after
`process_bookmarks` runs its `/Count` is still the stale value 5 (and
its childless child keeps the stale value 3): the invariant fails at
the outline root, which the editor never rewrites. -/
theorem claim_C1_counterexample :
    walkChain (process_bookmarks 8 8 (some 0) staleArena 1) 8
        ((getNode (process_bookmarks 8 8 (some 0) staleArena 1) 0).first) = [1] ∧
    (getNode (process_bookmarks 8 8 (some 0) staleArena 1) 0).count =
      some (.num 5) ∧
    (getNode (process_bookmarks 8 8 (some 0) staleArena 1) 1).count =
      some (.num 3) ∧
    ¬ ((5 : Int).natAbs = 1) ∧ ¬ ((3 : Int).natAbs = 0) := by
  decide

/-- C1, amended.  After `process_bookmarks`, every node of the
top-level forest that has at least one direct child carries
`childCount = policy vis d k` whose absolute value is exactly `k`, the
number of direct children spelled out by its sibling chain; but the
outline root's own entry and the entries of childless nodes are left
exactly as they were (stale values are not repaired). -/
theorem claim_C1_amended (L s vis o : Nat) (f : OForest) (a : Arena)
    (hrep : nodeRepB a o (.node o f) = true)
    (hnd : (idxsT (.node o f)).Nodup)
    (hht : htF f ≤ s) (hwd : wdF f ≤ L) (hlen : lenF f ≤ L) :
    (∀ j dj k, (j, dj, k) ∈ nodesF f 1 → 1 ≤ k →
      (getNode (process_bookmarks L s (some o) a vis) j).count =
          some (.num (policy vis dj k)) ∧
        (policy vis dj k).natAbs = k) ∧
    getNode (process_bookmarks L s (some o) a vis) o = getNode a o ∧
    (∀ j dj, (j, dj, 0) ∈ nodesF f 1 →
      getNode (process_bookmarks L s (some o) a vis) j = getNode a j) := by
  have hnd2 := List.nodup_append.mp (by simpa [idxsT] using hnd)
  refine ⟨fun j dj k hmem hk => ?_, ?_, fun j dj hmem => ?_⟩
  · rw [process_bookmarks_mem L s vis o f a hrep hnd hht hwd hlen j dj k hmem,
      if_neg (by omega)]
    exact ⟨rfl, policy_natAbs vis dj k⟩
  · exact process_bookmarks_outside L s vis o f a hrep hht hwd hlen o
      (fun h => hnd2.2.2 h (by simp))
  · rw [process_bookmarks_mem L s vis o f a hrep hnd hht hwd hlen j dj 0 hmem,
      if_pos rfl]

/-- C1, witness for the amended theorem, on the three-level `exArena`
with `vis = 2`: node 1 (depth 1, two children) gets `policy 2 1 2 = 2`
with `|2| = 2`; the root keeps its entry; the childless node 4 is
untouched. -/
theorem claim_C1_witness :
    ((getNode (process_bookmarks 9 9 (some 0) exArena 2) 1).count =
        some (.num (policy 2 1 2)) ∧
      (policy 2 1 2).natAbs = 2) ∧
    getNode (process_bookmarks 9 9 (some 0) exArena 2) 0 =
      getNode exArena 0 ∧
    getNode (process_bookmarks 9 9 (some 0) exArena 2) 4 =
      getNode exArena 4 := by
  have h := claim_C1_amended 9 9 2 0 exForest exArena (by decide) (by decide)
    (by decide) (by decide) (by decide)
  exact ⟨h.1 1 1 2 (by decide) (by decide), h.2.1, h.2.2 4 2 (by decide)⟩

/-- C2: the depth policy.  Every node of the top-level forest at depth
`d` with `k ≥ 1` direct children receives `childCount = k` when
`vis = 0` or `d < vis`, and `childCount = -k` otherwise; in particular
`vis = 0` yields the positive count `k` at every such node. -/
theorem claim_C2 (L s vis o : Nat) (f : OForest) (a : Arena)
    (hrep : nodeRepB a o (.node o f) = true)
    (hnd : (idxsT (.node o f)).Nodup)
    (hht : htF f ≤ s) (hwd : wdF f ≤ L) (hlen : lenF f ≤ L) :
    ∀ j dj k, (j, dj, k) ∈ nodesF f 1 → 1 ≤ k →
      (getNode (process_bookmarks L s (some o) a vis) j).count =
          some (.num (if vis = 0 ∨ dj < vis then (k : Int) else -(k : Int))) ∧
        (vis = 0 →
          (getNode (process_bookmarks L s (some o) a vis) j).count =
              some (.num (k : Int)) ∧
            0 < (k : Int)) := by
  intro j dj k hmem hk
  rw [process_bookmarks_mem L s vis o f a hrep hnd hht hwd hlen j dj k hmem,
    if_neg (by omega)]
  constructor
  · rw [← policy_eq_spec]
  · intro h0
    constructor
    · simp [policy, h0]
    · exact_mod_cast hk

/-- C2, witness on `exArena` with `vis = 2`: node 3 sits at depth 2
with one child, `2 = 0 ∨ 2 < 2` is false, so its count is `-1`. -/
theorem claim_C2_witness :
    (getNode (process_bookmarks 9 9 (some 0) exArena 2) 3).count =
      some (.num (if (2 : Nat) = 0 ∨ (2 : Nat) < 2 then (1 : Int) else -(1 : Int))) := by
  exact (claim_C2 9 9 2 0 exForest exArena (by decide) (by decide) (by decide)
    (by decide) (by decide) 3 2 1 (by decide) (by decide)).1

/-- C3, counterexample.  With `visibleLevels = 1` on `smallArena`, the
depth-1 bookmark (index 1, one child) receives `childCount = -1` —
negative, not positive: `visible_levels = 1` collapses the top-level
bookmarks themselves (`current_level >= visible_levels` holds at depth
1), it does not leave them showing their children. -/
theorem claim_C3_counterexample :
    (getNode (process_bookmarks 8 8 (some 0) smallArena 1) 1).count =
      some (.num (-1)) ∧
    ¬ (0 < (-1 : Int)) := by
  decide

/-- C3, amended.  With `visibleLevels = 1`, every node of the top-level
forest with `k ≥ 1` direct children — at depth 1 exactly as at any
deeper level — receives the negative `childCount = -k`: every level
collapses, so only the top-level entries remain visible, with their
children hidden. -/
theorem claim_C3_amended (L s o : Nat) (f : OForest) (a : Arena)
    (hrep : nodeRepB a o (.node o f) = true)
    (hnd : (idxsT (.node o f)).Nodup)
    (hht : htF f ≤ s) (hwd : wdF f ≤ L) (hlen : lenF f ≤ L) :
    ∀ j dj k, (j, dj, k) ∈ nodesF f 1 → 1 ≤ k →
      (getNode (process_bookmarks L s (some o) a 1) j).count =
        some (.num (-(k : Int))) := by
  intro j dj k hmem hk
  rw [process_bookmarks_mem L s 1 o f a hrep hnd hht hwd hlen j dj k hmem,
    if_neg (by omega), policy_one dj k (nodesF_depth_ge f 1 hmem)]

/-- C3, witness for the amended theorem: on `exArena` with `vis = 1`
the depth-1 node 1 (two children) and the depth-2 node 3 (one child)
both receive negative counts. -/
theorem claim_C3_witness :
    (getNode (process_bookmarks 9 9 (some 0) exArena 1) 1).count =
      some (.num (-(2 : Int))) ∧
    (getNode (process_bookmarks 9 9 (some 0) exArena 1) 3).count =
      some (.num (-(1 : Int))) := by
  have h := claim_C3_amended 9 9 0 exForest exArena (by decide) (by decide)
    (by decide) (by decide) (by decide)
  exact ⟨h 1 1 2 (by decide) (by decide), h 3 2 1 (by decide) (by decide)⟩

/-- C6: idempotence.  Running `process_bookmarks` a second time over
its own output changes nothing: the second run recounts the same
(untouched) sibling chains and overwrites every `/Count` it wrote with
the same value. -/
theorem claim_C6 (L s vis o : Nat) (f : OForest) (a : Arena)
    (hrep : nodeRepB a o (.node o f) = true)
    (hnd : (idxsT (.node o f)).Nodup)
    (hht : htF f ≤ s) (hwd : wdF f ≤ L) (hlen : lenF f ≤ L) :
    process_bookmarks L s (some o) (process_bookmarks L s (some o) a vis) vis
      = process_bookmarks L s (some o) a vis := by
  have hnd2 := List.nodup_append.mp (by simpa [idxsT] using hnd)
  obtain ⟨-, -, hchain⟩ := nodeRepB_node hrep
  have hrange : ∀ x ∈ idxsF f, x < a.length :=
    fun x hx => repF_lt_length hchain x hx
  have h1 := process_bookmarks_sim L s vis o f a hrep hht hwd hlen
  have hse := (process_bookmarks_frame L s (some o) a vis).1
  have hrepb : nodeRepB (process_bookmarks L s (some o) a vis) o
      (.node o f) = true := by
    rw [nodeRepB_congr hse]
    exact hrep
  rw [process_bookmarks_sim L s vis o f _ hrepb hht hwd hlen, h1]
  have hlen1 : (applyChainF f 1 vis a).length = a.length :=
    ((applyChainF_structEq f 1 vis a).1).symm
  have hrange1 : ∀ x ∈ idxsF f, x < (applyChainF f 1 vis a).length := by
    rw [hlen1]
    exact hrange
  apply arena_ext
  · rw [← (applyChainF_structEq f 1 vis (applyChainF f 1 vis a)).1]
  · intro j
    by_cases hj : j ∈ idxsF f
    · obtain ⟨⟨j2, dj, k⟩, hmem, hfst⟩ :=
        List.mem_map.mp (by rw [idxsF_eq_map_fst f 1] at *; exact hj)
      cases hfst
      have hc1 := applyChainF_char f 1 vis a j2 dj k hnd2.1 hrange hmem
      have hc2 := applyChainF_char f 1 vis (applyChainF f 1 vis a) j2 dj k
        hnd2.1 hrange1 hmem
      by_cases hk : k = 0
      · rw [hc2, if_pos hk]
      · rw [hc2, if_neg hk, hc1, if_neg hk]
    · rw [applyChainF_outside f 1 vis _ j hj]

/-- C6, witness on `exArena` with `vis = 1`. -/
theorem claim_C6_witness :
    process_bookmarks 9 9 (some 0)
        (process_bookmarks 9 9 (some 0) exArena 1) 1 =
      process_bookmarks 9 9 (some 0) exArena 1 :=
  claim_C6 9 9 1 0 exForest exArena (by decide) (by decide) (by decide)
    (by decide) (by decide)

/-- C10: the frame property.  `process_bookmarks` preserves the length
of the arena and the `/First`, `/Next` and remaining (`title`) entries
of every node unconditionally (`structEq`); the `/Count` of any node
without a `/First` pointer — including one holding a stale value — is
never removed or rewritten, unconditionally; and on a well-formed
outline the root's own record, `/Count` included, is returned exactly
as it was. -/
theorem claim_C10 (L s vis : Nat) (o : Option Nat) (a : Arena) :
    structEq a (process_bookmarks L s o a vis) ∧
    (∀ j, (getNode a j).first = none →
      (getNode (process_bookmarks L s o a vis) j).count =
        (getNode a j).count) ∧
    (∀ (o0 : Nat) (f : OForest), o = some o0 →
      nodeRepB a o0 (.node o0 f) = true → (idxsT (.node o0 f)).Nodup →
      htF f ≤ s → wdF f ≤ L → lenF f ≤ L →
      getNode (process_bookmarks L s o a vis) o0 = getNode a o0) := by
  refine ⟨(process_bookmarks_frame L s o a vis).1,
    (process_bookmarks_frame L s o a vis).2, ?_⟩
  rintro o0 f rfl hrep hnd hht hwd hlen
  have hnd2 := List.nodup_append.mp (by simpa [idxsT] using hnd)
  rw [process_bookmarks_sim L s vis o0 f a hrep hht hwd hlen]
  exact applyChainF_outside f 1 vis a o0 (fun h => hnd2.2.2 h (by simp))

/-- C10, witness on `exArena` with `vis = 1`: structure preserved, the
stale-free childless node 5 untouched, and the root record returned
unchanged. -/
theorem claim_C10_witness :
    ((getNode (process_bookmarks 9 9 (some 0) exArena 1) 5).first =
        (getNode exArena 5).first ∧
      (getNode (process_bookmarks 9 9 (some 0) exArena 1) 5).count =
        (getNode exArena 5).count) ∧
    getNode (process_bookmarks 9 9 (some 0) exArena 1) 0 =
      getNode exArena 0 := by
  have h := claim_C10 9 9 1 (some 0) exArena
  exact ⟨⟨(h.1.2 5).1, h.2.1 5 (by decide)⟩,
    h.2.2 0 exForest rfl (by decide) (by decide) (by decide) (by decide)
      (by decide)⟩

/-- C5: cycle safety.  On any outline arena containing a back-edge
(a node `x` listing its own ancestor `anc` as a child) the editor —
whose model is a total function precisely because every
`RecursionError` raised when the stack budget runs out inside the
cyclic branch is caught by the `try/except` of the enclosing frame, as
in the source — still returns: the arena keeps its length and every
`/First`/`/Next`/`title` entry (no crash, no corruption, the cyclic
branch is merely abandoned); and when the cyclic branch hangs off the
first top-level bookmark, the well-formed forest formed by the
remaining top-level bookmarks still receives its full visibility
assignment. -/
theorem claim_C5 (L s vis dfuel x anc : Nat) (o : Option Nat) (a : Arena)
    (hcyc : hasBackEdge a dfuel x anc = true) :
    (structEq a (process_bookmarks L s o a vis) ∧
      (process_bookmarks L s o a vis).length = a.length) ∧
    (∀ (o0 b : Nat) (f : OForest), o = some o0 →
      (getNode a o0).first = some b →
      chainRepB a ((getNode a b).next) f = true → (idxsF f).Nodup →
      1 ≤ s → htF f ≤ s → wdF f ≤ L → lenF f + 1 ≤ L →
      ∀ j dj k, (j, dj, k) ∈ nodesF f 1 → 1 ≤ k →
        (getNode (process_bookmarks L s o a vis) j).count =
          some (.num (policy vis dj k))) := by
  constructor
  · exact ⟨(process_bookmarks_frame L s o a vis).1,
      ((process_bookmarks_frame L s o a vis).1.1).symm⟩
  · rintro o0 b f rfl hb hchain hnd hs hht hwd hlenL j dj k hmem hk
    simp only [process_bookmarks, hb]
    cases s with
    | zero => omega
    | succ s0 =>
      cases L with
      | zero => omega
      | succ L0 =>
        cases hcb : collapse_child_bookmarks (L0 + 1) (s0 + 1) a b 1 vis with
        | error a2 =>
          exact absurd hcb (by simp [collapse_child_bookmarks])
        | ok a2 =>
          have hfr := collapse_child_bookmarks_frame (L0 + 1) (s0 + 1) a b 1 vis
          rw [hcb] at hfr
          simp only [exEA] at hfr
          have hnext : (getNode a2 b).next = (getNode a b).next :=
            (hfr.1.2 b).2.1
          simp only [topLoop, hcb, hnext]
          cases f with
          | nil => simp [nodesF] at hmem
          | cons t f0 =>
            obtain ⟨c2, hc2⟩ : ∃ c2, (getNode a b).next = some c2 := by
              cases hx : (getNode a b).next with
              | none =>
                rw [hx] at hchain
                simp [chainRepB] at hchain
              | some c2 => exact ⟨c2, rfl⟩
            rw [hc2] at hchain
            simp only [hc2]
            have hchain2 : chainRepB a2 (some c2) (.cons t f0) = true := by
              rw [chainRepB_congr hfr.1]
              exact hchain
            rw [topLoop_sim (L0 + 1) vis f0 t L0 (s0 + 1) a2 c2 hchain2
              (by simpa using hht) (by simpa using hwd)
              (by simp only [lenF] at hlenL ⊢; omega)]
            have hrange : ∀ y ∈ idxsF (.cons t f0), y < a2.length :=
              fun y hy => repF_lt_length hchain2 y hy
            rw [applyChainF_char (.cons t f0) 1 vis a2 j dj k hnd hrange hmem,
              if_neg (by omega)]

/-- C5, witness on `cycArena`: the back-edge `mid → bad` (node 2 lists
its ancestor, node 1, as a child) is present; the editor still returns
with node 3's sibling pointer intact, and the well-formed second
top-level bookmark `good` (node 3, one child) receives its collapsed
count `policy 1 1 1 = -1`. -/
theorem claim_C5_witness :
    (getNode (process_bookmarks 6 8 (some 0) cycArena 1) 1).next =
        (getNode cycArena 1).next ∧
    (process_bookmarks 6 8 (some 0) cycArena 1).length = cycArena.length ∧
    (getNode (process_bookmarks 6 8 (some 0) cycArena 1) 3).count =
      some (.num (policy 1 1 1)) := by
  have h := claim_C5 6 8 1 6 2 1 (some 0) cycArena (by decide)
  exact ⟨(h.1.1.2 1).2.1, h.1.2,
    h.2 0 1 cycGoodForest rfl (by decide) (by decide) (by decide)
      (by decide) (by decide) (by decide) (by decide) 3 1 1 (by decide)
      (by decide)⟩

/- ### Claims about the inspector, the scrubber and the pipeline -/

/-- C4, counterexample.  On `junkCountDoc` (its first top-level
bookmark has a child but a non-integer `/Count`) the inspector's
snapshot has no `Child Bookmarks` entry at all — the failure was not
recorded as `"Unknown"` for that field; instead extraction stopped and
an `Error` entry was appended (earlier fields such as `Title` are
present). -/
theorem claim_C4_counterexample :
    (get_pdf_properties (.ok junkCountDoc)).lookup "Child Bookmarks" = none ∧
    (get_pdf_properties (.ok junkCountDoc)).lookup "Error" =
      some "invalid count: oops" ∧
    (get_pdf_properties (.ok junkCountDoc)).lookup "Title" = some "T" := by
  exact ⟨rfl, rfl, rfl⟩

/-- Helper: the inspector's snapshot always carries the linearization
field, computed with its inner `try/except`. -/
theorem inspector_lookup_fwv (q : PdfDoc) :
    (get_pdf_properties (.ok q)).lookup "Fast Web View" =
      some (match q.linearized with
        | .ok b => if b then "Yes" else "No"
        | .error _ => "Unknown") := by
  rcases hcb : childBookmarksF q with e | v <;>
    (simp only [get_pdf_properties, hcb]; rfl)

/-- Helper: the six Info fields of the snapshot hold the `metaField`
values. -/
theorem inspector_lookup_info (q : PdfDoc) :
    (get_pdf_properties (.ok q)).lookup "Title" =
        some (metaField q "/Title") ∧
      (get_pdf_properties (.ok q)).lookup "Author" =
        some (metaField q "/Author") ∧
      (get_pdf_properties (.ok q)).lookup "Subject" =
        some (metaField q "/Subject") ∧
      (get_pdf_properties (.ok q)).lookup "Keywords" =
        some (metaField q "/Keywords") ∧
      (get_pdf_properties (.ok q)).lookup "Creator" =
        some (metaField q "/Creator") ∧
      (get_pdf_properties (.ok q)).lookup "Producer" =
        some (metaField q "/Producer") := by
  rcases hcb : childBookmarksF q with e | v <;>
    (refine ⟨?_, ?_, ?_, ?_, ?_, ?_⟩ <;>
      (simp only [get_pdf_properties, hcb]; rfl))

/-- Helper: the snapshot's XMP field reflects the `/Metadata`
presence check. -/
theorem inspector_lookup_xmp (q : PdfDoc) :
    (get_pdf_properties (.ok q)).lookup "XMP Metadata" =
      some (if q.metadataStream then "Yes" else "No") := by
  rcases hcb : childBookmarksF q with e | v <;>
    (simp only [get_pdf_properties, hcb]; rfl)

/-- Helper: when the bookmark classification succeeds its value is the
snapshot's `Child Bookmarks` entry and no `Error` entry exists. -/
theorem inspector_lookup_cb_ok (q : PdfDoc) (v : String)
    (h : childBookmarksF q = .ok v) :
    (get_pdf_properties (.ok q)).lookup "Child Bookmarks" = some v ∧
    (get_pdf_properties (.ok q)).lookup "Error" = none := by
  constructor <;> (simp only [get_pdf_properties, h]; rfl)

/-- Helper: when the bookmark classification raises, the snapshot has
no `Child Bookmarks` entry and records the error message instead. -/
theorem inspector_lookup_cb_error (q : PdfDoc) (e : String)
    (h : childBookmarksF q = .error e) :
    (get_pdf_properties (.ok q)).lookup "Child Bookmarks" = none ∧
    (get_pdf_properties (.ok q)).lookup "Error" = some e := by
  constructor <;> (simp only [get_pdf_properties, h]; rfl)

/-- C4, amended.  The inspector never raises and always returns a
property list, but only the linearization field uses the `"Unknown"`
sentinel: when the document opens and the bookmark classification
succeeds, every field of the fixed set is present; when classifying
`Child Bookmarks` fails, that field is absent and an `Error` entry is
recorded (earlier fields remain present); when open fails, the list
holds only an `Error` entry. -/
theorem claim_C4_amended (pdf : PdfDoc) :
    ((get_pdf_properties (.ok pdf)).lookup "Fast Web View" =
      some (match pdf.linearized with
        | .ok b => if b then "Yes" else "No"
        | .error _ => "Unknown")) ∧
    ((get_pdf_properties (.ok pdf)).lookup "Title" =
      some (metaField pdf "/Title")) ∧
    ((get_pdf_properties (.ok pdf)).lookup "XMP Metadata" =
      some (if pdf.metadataStream then "Yes" else "No")) ∧
    (∀ v, childBookmarksF pdf = .ok v →
      (get_pdf_properties (.ok pdf)).lookup "Child Bookmarks" = some v ∧
      (get_pdf_properties (.ok pdf)).lookup "Error" = none) ∧
    (∀ e, childBookmarksF pdf = .error e →
      (get_pdf_properties (.ok pdf)).lookup "Child Bookmarks" = none ∧
      (get_pdf_properties (.ok pdf)).lookup "Error" = some e) ∧
    (∀ e, get_pdf_properties (.error e) = [("Error", e)]) :=
  ⟨inspector_lookup_fwv pdf, (inspector_lookup_info pdf).1,
    inspector_lookup_xmp pdf,
    fun v h => inspector_lookup_cb_ok pdf v h,
    fun e h => inspector_lookup_cb_error pdf e h,
    fun _ => rfl⟩

/-- C4, witness for the amended theorem, applied to `plainDoc` (whose
classification succeeds, and whose unreadable linearization flag shows
up as `"Unknown"`) and to `junkCountDoc` (whose classification
fails). -/
theorem claim_C4_witness :
    ((get_pdf_properties (.ok plainDoc)).lookup "Fast Web View" =
      some "Unknown") ∧
    ((get_pdf_properties (.ok plainDoc)).lookup "Child Bookmarks" =
      some "Collapsed") ∧
    ((get_pdf_properties (.ok junkCountDoc)).lookup "Child Bookmarks" =
      none) := by
  refine ⟨(claim_C4_amended plainDoc).1, ?_, ?_⟩
  · exact ((claim_C4_amended plainDoc).2.2.2.1 "Collapsed" rfl).1
  · exact ((claim_C4_amended junkCountDoc).2.2.2.2.1
      "invalid count: oops" rfl).1

/-- C7, counterexample.  `noCountDoc` carries no XMP stream at all,
yet after `remove_metadata` the inspector reports
`XMP Metadata = "Yes"`, not `"No"`: the scrubber's own XMP-clearing
step re-creates an empty `/Metadata` stream when the `open_metadata`
block is exited, so the presence check at line 63 fires. -/
theorem claim_C7_counterexample :
    (get_pdf_properties (.ok (remove_metadata noCountDoc))).lookup
        "XMP Metadata" = some "Yes" ∧
    ¬ ((get_pdf_properties (.ok (remove_metadata noCountDoc))).lookup
        "XMP Metadata" = some "No") ∧
    noCountDoc.metadataStream = false := by
  exact ⟨rfl, by decide, rfl⟩

/-- C7, amended.  Whatever the document's metadata was, after
`remove_metadata` the inspector reports the sentinel `"None"` for all
six Info fields (the trailer's `/Info` is gone); but `XMP Metadata`
reads `"Yes"`, not `"No"`: the write-back on leaving the
`open_metadata` block re-creates the `/Metadata` stream — holding an
empty XMP property set — so the presence-only check still fires. -/
theorem claim_C7_amended (pdf : PdfDoc) :
    ((get_pdf_properties (.ok (remove_metadata pdf))).lookup "Title" =
      some "None") ∧
    ((get_pdf_properties (.ok (remove_metadata pdf))).lookup "Author" =
      some "None") ∧
    ((get_pdf_properties (.ok (remove_metadata pdf))).lookup "Subject" =
      some "None") ∧
    ((get_pdf_properties (.ok (remove_metadata pdf))).lookup "Keywords" =
      some "None") ∧
    ((get_pdf_properties (.ok (remove_metadata pdf))).lookup "Creator" =
      some "None") ∧
    ((get_pdf_properties (.ok (remove_metadata pdf))).lookup "Producer" =
      some "None") ∧
    ((get_pdf_properties (.ok (remove_metadata pdf))).lookup "XMP Metadata" =
      some "Yes") ∧
    (remove_metadata pdf).xmpKeys = [] ∧
    (remove_metadata pdf).docinfo = none := by
  have hd : (remove_metadata pdf).docinfo = none := by
    obtain ⟨o, ar, di, ms, xk, pm, pl, mi, st, li, vp⟩ := pdf
    cases di <;> cases ms <;> rfl
  have hm : (remove_metadata pdf).metadataStream = true := by
    obtain ⟨o, ar, di, ms, xk, pm, pl, mi, st, li, vp⟩ := pdf
    cases di <;> cases ms <;> rfl
  have hx : (remove_metadata pdf).xmpKeys = [] := by
    obtain ⟨o, ar, di, ms, xk, pm, pl, mi, st, li, vp⟩ := pdf
    cases di <;> cases ms <;> rfl
  have hfld : ∀ k, metaField (remove_metadata pdf) k = "None" := by
    intro k
    simp [metaField, hd]
  obtain ⟨h1, h2, h3, h4, h5, h6⟩ := inspector_lookup_info (remove_metadata pdf)
  rw [h1, h2, h3, h4, h5, h6, inspector_lookup_xmp (remove_metadata pdf), hm,
    hfld, hfld, hfld, hfld, hfld, hfld]
  exact ⟨rfl, rfl, rfl, rfl, rfl, rfl, rfl, hx, hd⟩

/-- C8, counterexample.  In `noCountDoc` the first top-level bookmark
(index 1) does have a child (its `/First` is set), yet because it
carries no `/Count` entry the inspector classifies the document as
`"No Children"` — the classification is not determined by the presence
of children alone, contradicting the claimed case split. -/
theorem claim_C8_counterexample :
    childBookmarksF noCountDoc = .ok "No Children" ∧
    (getNode noCountDoc.arena 1).first = some 2 := by
  exact ⟨rfl, rfl⟩

/-- C8, amended.  The inspector classifies `Child Bookmarks` as
`"No Bookmarks"` when there is no outline root or the root has no
first child; as `"No Children"` when the first top-level bookmark
lacks children **or lacks a `/Count` entry**; and otherwise, for an
integer `/Count`, as `"Collapsed"` when it is negative and
`"Expanded"` when it is zero or positive. -/
theorem claim_C8_amended (pdf : PdfDoc) :
    (pdf.outlines = none → childBookmarksF pdf = .ok "No Bookmarks") ∧
    (∀ o0, pdf.outlines = some o0 → (getNode pdf.arena o0).first = none →
      childBookmarksF pdf = .ok "No Bookmarks") ∧
    (∀ o0 fb, pdf.outlines = some o0 →
      (getNode pdf.arena o0).first = some fb →
      ((getNode pdf.arena fb).first = none ∨
        (getNode pdf.arena fb).count = none) →
      childBookmarksF pdf = .ok "No Children") ∧
    (∀ o0 fb c k, pdf.outlines = some o0 →
      (getNode pdf.arena o0).first = some fb →
      (getNode pdf.arena fb).first = some c →
      (getNode pdf.arena fb).count = some (.num k) →
      childBookmarksF pdf = .ok (if k < 0 then "Collapsed" else "Expanded")) := by
  refine ⟨?_, ?_, ?_, ?_⟩
  · intro h
    simp [childBookmarksF, h]
  · intro o0 h1 h2
    simp [childBookmarksF, h1, h2]
  · intro o0 fb h1 h2 h3
    rcases h3 with h3 | h3
    · cases hc : (getNode pdf.arena fb).count with
      | none => simp [childBookmarksF, h1, h2, h3, hc]
      | some cv => simp [childBookmarksF, h1, h2, h3, hc]
    · cases hf : (getNode pdf.arena fb).first with
      | none => simp [childBookmarksF, h1, h2, h3, hf]
      | some c => simp [childBookmarksF, h1, h2, h3, hf]
  · intro o0 fb c k h1 h2 h3 h4
    simp [childBookmarksF, h1, h2, h3, h4]

/-- C8, witness for the amended theorem: a document without outlines
is `"No Bookmarks"`; `noCountDoc` (child present, `/Count` absent) is
`"No Children"`; `plainDoc` (child present, `/Count = -1`) is
`"Collapsed"`. -/
theorem claim_C8_witness :
    childBookmarksF { noCountDoc with outlines := none } =
      .ok "No Bookmarks" ∧
    childBookmarksF noCountDoc = .ok "No Children" ∧
    childBookmarksF plainDoc = .ok (if (-1 : Int) < 0 then "Collapsed"
      else "Expanded") := by
  refine ⟨(claim_C8_amended _).1 rfl, ?_, ?_⟩
  · exact (claim_C8_amended noCountDoc).2.2.1 0 1 rfl rfl (Or.inr rfl)
  · exact (claim_C8_amended plainDoc).2.2.2 0 1 2 (-1) rfl rfl rfl rfl

/-- C9, counterexample.  In `badSaveWorld` the first save raises
(`"disk full"`): `process_pdf` returns `Failure` — and the document
handle opened on the input is still open when it returns (the source
has no `finally`-style cleanup), so a handle does leak on this exit
path. -/
theorem claim_C9_counterexample :
    (process_pdf 4 4 badSaveWorld 1).1 = (false, "disk full") ∧
    ¬ ((process_pdf 4 4 badSaveWorld 1).2 = 0) := by
  exact ⟨rfl, by decide⟩

/-- C9, amended.  `process_pdf` closes every handle it opened on the
`Success` path and on the paths where `Pdf.open` itself fails (no
handle was opened) — but when either `pdf.save` call raises, the
`except` branch returns `Failure` with the currently open document
handle left unclosed. -/
theorem claim_C9_amended (L s : Nat) (w : PdfWorld) (bl : Nat) :
    ((process_pdf L s w bl).1.1 = true → (process_pdf L s w bl).2 = 0) ∧
    (∀ e, w.openInput = .error e →
      process_pdf L s w bl = ((false, e), 0)) ∧
    (∀ pdf e, w.openInput = .ok pdf →
      w.saveFirst (normalizeDoc L s bl pdf) = .error e →
      process_pdf L s w bl = ((false, e), 1)) ∧
    (∀ pdf e, w.openInput = .ok pdf →
      w.saveFirst (normalizeDoc L s bl pdf) = .ok () → w.reopen = .error e →
      process_pdf L s w bl = ((false, e), 0)) ∧
    (∀ pdf pdf2 e, w.openInput = .ok pdf →
      w.saveFirst (normalizeDoc L s bl pdf) = .ok () → w.reopen = .ok pdf2 →
      w.saveSecond (remove_metadata pdf2) = .error e →
      process_pdf L s w bl = ((false, e), 1)) := by
  refine ⟨?_, ?_, ?_, ?_, ?_⟩
  · intro h
    rcases hw : w.openInput with e | pdf
    · simp [process_pdf, hw] at h
    · rcases hs1 : w.saveFirst (normalizeDoc L s bl pdf) with e | u
      · simp [process_pdf, hw, hs1] at h
      · rcases hr : w.reopen with e | pdf2
        · simp [process_pdf, hw, hs1, hr] at h
        · rcases hs2 : w.saveSecond (remove_metadata pdf2) with e | u2
          · simp [process_pdf, hw, hs1, hr, hs2] at h
          · simp [process_pdf, hw, hs1, hr, hs2]
  · intro e hw
    simp [process_pdf, hw]
  · intro pdf e hw hs1
    simp [process_pdf, hw, hs1]
  · intro pdf e hw hs1 hr
    simp [process_pdf, hw, hs1, hr]
  · intro pdf pdf2 e hw hs1 hr hs2
    simp [process_pdf, hw, hs1, hr, hs2]

/-- C9, witness for the amended theorem: in `okWorld` the pipeline
returns `Success` with zero handles open; in `badSaveWorld` the failed
first save returns `Failure` with one handle open. -/
theorem claim_C9_witness :
    (process_pdf 4 4 okWorld 1).2 = 0 ∧
    process_pdf 4 4 badSaveWorld 1 = ((false, "disk full"), 1) := by
  constructor
  · exact (claim_C9_amended 4 4 okWorld 1).1 rfl
  · exact (claim_C9_amended 4 4 badSaveWorld 1).2.2.1 plainDoc "disk full"
      rfl rfl
